import Mathlib

/-!
Shallow embedding of the billing / payment-reconciliation slice of the
hair-salon web application:

* `routes/visits.js`  — POST /api/visits (visit creation, server-side billing)
* `index/admin.js`    — POST /api/create-order, POST /api/verify-order-payment
* `hooks/useVisitForm.ts` — client-side live billing preview
* `models/Visit.js`, `models/Service.js` — the relevant document shapes

JavaScript numbers are modelled as rationals (ℚ); `Math.round` is
`fun x => Int.floor (x + 1/2)` (JS rounds halves toward +infinity).
Fields that JavaScript treats by truthiness are modelled as `Option`
values, with `none` standing for an absent / null field and `some ""`
for an empty string.  String fields that never influence the billing
logic (client name, contact, dates, times, artist) are omitted: the
route only copies them into the document.
-/

namespace Salon

/-- JS Math.round on a rational: floor of x + 1/2 (halves round up). -/
def jsRound (x : ℚ) : ℤ := ⌊x + 1/2⌋

/-- JS expression `Number(v) || 0`: an absent field (or a NaN coercion,
modelled as `none`) yields 0, a numeric value yields itself. -/
def numOr0 : Option ℚ → ℚ
  | none => 0
  | some q => q

/-- JS truthiness of an optional string field: null/undefined and the
empty string are falsy, every other string is truthy. -/
def truthy : Option String → Bool
  | none => false
  | some s => s != ""

/-- One document of the Service collection (models/Service.js):
name, price (Number, min 0) and the soft-delete flag. -/
structure ServiceDoc where
  id : String
  name : String
  price : ℚ
  isActive : Bool
deriving Repr, DecidableEq

/-- Denormalized service snapshot stored on a Visit: { name, price }. -/
structure SvcSnap where
  name : String
  price : ℚ
deriving Repr, DecidableEq

/-- The three payment methods of the Visit schema.  The source strings
are "online", "cash" and "partial". -/
inductive PayMethod
  | online
  | cash
  | partialPay
deriving Repr, DecidableEq

/-- Billing-relevant fields of a persisted Visit document
(models/Visit.js).  Client/visit metadata fields are omitted: the
route copies them verbatim and no claim mentions them. -/
structure Visit where
  services : List SvcSnap
  subtotal : ℚ
  discountPercent : ℚ
  discountAmount : ℤ
  finalTotal : ℚ
  paymentMethod : PayMethod
  cashAmount : ℚ
  onlineAmount : ℚ
  paymentStatus : String
  razorpayPaymentId : Option String
deriving Repr, DecidableEq

namespace VisitsRoute

/-- Billing-relevant fields of a POST /api/visits request body, after
JSON parsing.  Numeric fields carry the value of the JS `Number`
coercion (`none` = field absent).  `razorpayPaymentId` is the trimmed
submitted string (`none` = absent or null). -/
structure Req where
  serviceIds : List String
  discountPercent : Option ℚ
  paymentMethod : Option PayMethod
  cashAmount : Option ℚ
  onlineAmount : Option ℚ
  razorpayPaymentId : Option String
deriving Repr, DecidableEq

/-- express-validator `isMongoId`: 24 hexadecimal characters. -/
def isMongoId (s : String) : Bool :=
  s.data.length == 24 &&
    s.data.all (fun c =>
      c.isDigit || ((97 ≤ c.toNat) && (c.toNat ≤ 102)) ||
        ((65 ≤ c.toNat) && (c.toNat ≤ 70)))

/-- The `createRules` validation chain of routes/visits.js, restricted
to the billing-relevant fields: serviceIds is a non-empty array of
Mongo ids; discountPercent, when present, is a number in [0,100];
cashAmount and onlineAmount, when present, are numbers ≥ 0.
(paymentMethod membership in the enum is enforced by the `PayMethod`
type itself; the omitted metadata rules never affect billing.) -/
def createRulesOk (r : Req) : Bool :=
  decide (1 ≤ r.serviceIds.length) &&
  r.serviceIds.all isMongoId &&
  (match r.discountPercent with
   | none => true
   | some d => decide (0 ≤ d) && decide (d ≤ 100)) &&
  (match r.cashAmount with
   | none => true
   | some c => decide (0 ≤ c)) &&
  (match r.onlineAmount with
   | none => true
   | some c => decide (0 ≤ c))

/-- `Service.find({ _id: { $in: serviceIds }, isActive: true })`: the
documents of the catalog that are active and whose id was submitted
(in collection order, each document at most once). -/
def serviceDocsFor (db : List ServiceDoc) (ids : List String) : List ServiceDoc :=
  db.filter (fun s => s.isActive && ids.contains s.id)

/-- `services.reduce((sum, s) => sum + s.price, 0)`. -/
def subtotalOf (services : List SvcSnap) : ℚ :=
  services.foldl (fun sum s => sum + s.price) 0

/-- `Math.min(100, Math.max(0, Number(discountPercent) || 0))`. -/
def pctOf (discountPercent : Option ℚ) : ℚ :=
  min 100 (max 0 (numOr0 discountPercent))

/-- `Math.round(subtotal * (pct / 100))`. -/
def discountAmountOf (subtotal pct : ℚ) : ℤ :=
  jsRound (subtotal * (pct / 100))

/-- `Math.max(0, subtotal - discountAmount)`. -/
def finalTotalOf (subtotal pct : ℚ) : ℚ :=
  max 0 (subtotal - discountAmountOf subtotal pct)

/-- Outcome of the POST /api/visits handler.  `fieldErrors` is the 400
response carrying the express-validator `errors` array; `error` is a
400 response with a single `error` message; `created` is the 201
response after `Visit.create`. -/
inductive Result
  | created (v : Visit)
  | fieldErrors
  | error (status : Nat) (msg : String)
deriving Repr, DecidableEq

/-- The handler local `services`: resolved docs mapped to snapshots. -/
def servicesFor (db : List ServiceDoc) (r : Req) : List SvcSnap :=
  (serviceDocsFor db r.serviceIds).map (fun s => ⟨s.name, s.price⟩)

/-- The handler local `subtotal`. -/
def subtotalFor (db : List ServiceDoc) (r : Req) : ℚ :=
  subtotalOf (servicesFor db r)

/-- The handler local `finalTotal`. -/
def finalTotalFor (db : List ServiceDoc) (r : Req) : ℚ :=
  finalTotalOf (subtotalFor db r) (pctOf r.discountPercent)

/-- The handler local `paymentMethod` (destructuring default "online"). -/
def methodOf (r : Req) : PayMethod :=
  r.paymentMethod.getD .online

/-- The document passed to `Visit.create` by the handler (billing
fields; the handler locals are the named functions above, and
derivedCash / derivedOnline are the per-method match). -/
def visitDoc (db : List ServiceDoc) (r : Req) : Visit :=
  { services := servicesFor db r
    subtotal := subtotalFor db r
    discountPercent := pctOf r.discountPercent
    discountAmount := discountAmountOf (subtotalFor db r) (pctOf r.discountPercent)
    finalTotal := finalTotalFor db r
    paymentMethod := methodOf r
    cashAmount :=
      match methodOf r with
      | .cash => finalTotalFor db r
      | .partialPay => (jsRound (numOr0 r.cashAmount) : ℚ)
      | .online => 0
    onlineAmount :=
      match methodOf r with
      | .cash => 0
      | .partialPay => finalTotalFor db r - (jsRound (numOr0 r.cashAmount) : ℚ)
      | .online => finalTotalFor db r
    paymentStatus := "success"
    razorpayPaymentId := if truthy r.razorpayPaymentId then r.razorpayPaymentId else none }

/-- The POST /api/visits handler of routes/visits.js: validation,
service resolution, server-side billing, payment-method checks,
cash/online split derivation, and the created document.  The JS
`!cashAmount || cashAmount <= 0 || cashAmount >= finalTotal` check is
kept verbatim (its first two disjuncts coincide on validated input). -/
def post (db : List ServiceDoc) (r : Req) : Result :=
  if !(createRulesOk r) then .fieldErrors
  else if (serviceDocsFor db r.serviceIds).length = 0 then
    .error 400 "No valid active services found"
  else if methodOf r = .online && !(truthy r.razorpayPaymentId) then
    .error 400 "Razorpay Payment ID is required for online payment"
  else if methodOf r = .partialPay && !(truthy r.razorpayPaymentId) then
    .error 400 "Razorpay Payment ID is required for partial payment"
  else if methodOf r = .partialPay &&
      (decide (numOr0 r.cashAmount = 0) || decide (numOr0 r.cashAmount ≤ 0) ||
        decide (finalTotalFor db r ≤ numOr0 r.cashAmount)) then
    .error 400 "Cash amount must be between ₹1 and total minus ₹1 for partial payment"
  else
    .created (visitDoc db r)

/-- The Visit collection after one POST /api/visits request:
`Visit.create` appends a document exactly when the handler reaches it. -/
def visitsAfter (db : List ServiceDoc) (visits : List Visit) (r : Req) : List Visit :=
  match post db r with
  | .created v => visits ++ [v]
  | _ => visits

end VisitsRoute

namespace AdminRoutes

/-- The JS `Number` coercion of the submitted `amount` field, split by
the truthiness test the route performs first: `absent` covers every
JS-falsy amount (missing, null, 0, empty string), `nonNumeric` a truthy
value whose coercion is NaN, `num q` a truthy value coercing to q. -/
inductive AmountVal
  | absent
  | nonNumeric
  | num (q : ℚ)
deriving Repr, DecidableEq

/-- Truthiness of the submitted amount. -/
def amountTruthy : AmountVal → Bool
  | .absent => false
  | _ => true

/-- Body of POST /api/create-order (name, phone, amount). -/
structure OrderReq where
  name : Option String
  phone : Option String
  amount : AmountVal
deriving Repr, DecidableEq

/-- validatePaymentInput of index/admin.js: requires truthy name, phone
and amount, converts to paise with `Math.round(Number(amount) * 100)`,
and rejects when the result is NaN (`nonNumeric`) or below 100. -/
def validatePaymentInput (r : OrderReq) : Except (Nat × String) ℤ :=
  if !(truthy r.name) || !(truthy r.phone) || !(amountTruthy r.amount) then
    .error (400, "name, phone and amount are required")
  else
    match r.amount with
    | .absent => .error (400, "name, phone and amount are required")
    | .nonNumeric => .error (400, "Amount must be at least ₹1")
    | .num q =>
      if jsRound (q * 100) < 100 then .error (400, "Amount must be at least ₹1")
      else .ok (jsRound (q * 100))

/-- Outcome of POST /api/create-order: the gateway order is created
with `amount: amountInPaise`; errors carry status and message. -/
inductive OrderResult
  | created (amountInPaise : ℤ)
  | err (status : Nat) (msg : String)
deriving Repr, DecidableEq

/-- POST /api/create-order: 503 when the gateway client is not
configured, otherwise validatePaymentInput, otherwise an order over
the computed paise amount.  (A gateway API failure would yield 500;
that network branch is outside the arithmetic model.) -/
def createOrder (configured : Bool) (r : OrderReq) : OrderResult :=
  if !configured then .err 503 "Payment service not configured"
  else
    match validatePaymentInput r with
    | .error (s, m) => .err s m
    | .ok amountInPaise => .created amountInPaise

/-- Body of POST /api/verify-order-payment (signature-relevant fields;
name, phone and amount are echoed back and checked by no claim). -/
structure VerifyReq where
  orderId : Option String
  paymentId : Option String
  signature : Option String
deriving Repr, DecidableEq

/-- Outcome of POST /api/verify-order-payment. -/
inductive VerifyResult
  | ok (paymentId orderId : String)
  | reject (status : Nat) (msg : String)
deriving Repr, DecidableEq

/-- POST /api/verify-order-payment of index/admin.js.  `hmacSha256`
models the helper of the same name: the hex HMAC-SHA256 digest of the
payload under the server-held RAZORPAY_KEY_SECRET, an arbitrary
function of the payload here.  The route reads and writes no Visit
document; the collection is threaded unchanged to state that. -/
def verifyOrderPayment (hmacSha256 : String → String) (visits : List Visit)
    (r : VerifyReq) : VerifyResult × List Visit :=
  if !(truthy r.orderId) || !(truthy r.paymentId) || !(truthy r.signature) then
    (.reject 400 "Missing payment parameters", visits)
  else if hmacSha256 (r.orderId.getD "" ++ "|" ++ r.paymentId.getD "") ≠ r.signature.getD "" then
    (.reject 400 "Invalid payment signature", visits)
  else
    (.ok (r.paymentId.getD "") (r.orderId.getD ""), visits)

end AdminRoutes

namespace UseVisitForm

/-- One entry of `dropdownData.services` in the client hook, as served
by GET /api/form-data: { id, name, price }. -/
structure CatalogItem where
  id : String
  name : String
  price : ℚ
deriving Repr, DecidableEq

/-- The `services` list of GET /api/form-data: active services mapped
to { id, name, price }.  The endpoint additionally sorts by category
and name; theorems therefore quantify over any permutation. -/
def formDataServices (db : List ServiceDoc) : List CatalogItem :=
  (db.filter (fun s => s.isActive)).map (fun s => ⟨s.id, s.name, s.price⟩)

/-- The hook `subtotal`: reduce over the selected ids, looking each id
up in dropdownData.services and adding `svc?.price ?? 0`. -/
def subtotal (services : List CatalogItem) (searchService : List String) : ℚ :=
  searchService.foldl
    (fun sum id =>
      sum + (((services.find? (fun s => s.id == id)).map (fun s => s.price)).getD 0))
    0

/-- The hook `discountPct`: `Math.min(100, Math.max(0, Number(formData.discount) || 0))`. -/
def discountPct (discount : Option ℚ) : ℚ :=
  min 100 (max 0 (numOr0 discount))

/-- The hook `discountAmt`: `Math.round(subtotal * (discountPct / 100))`. -/
def discountAmt (services : List CatalogItem) (searchService : List String)
    (discount : Option ℚ) : ℤ :=
  jsRound (subtotal services searchService * (discountPct discount / 100))

/-- The hook `payable`: `Math.max(0, subtotal - discountAmt)`. -/
def payable (services : List CatalogItem) (searchService : List String)
    (discount : Option ℚ) : ℚ :=
  max 0 (subtotal services searchService - discountAmt services searchService discount)

end UseVisitForm

namespace Examples

/-- A small service catalog: two active services (the prices of the
spec scenario) and one soft-deleted one. -/
def exDb : List ServiceDoc :=
  [⟨"aaaaaaaaaaaaaaaaaaaaaaaa", "Cut", 300, true⟩,
   ⟨"bbbbbbbbbbbbbbbbbbbbbbbb", "Colour", 500, true⟩,
   ⟨"cccccccccccccccccccccccc", "Old", 100, false⟩]

/-- Cash-mode request selecting both active services at 10% discount. -/
def exReqCash : VisitsRoute.Req :=
  { serviceIds := ["aaaaaaaaaaaaaaaaaaaaaaaa", "bbbbbbbbbbbbbbbbbbbbbbbb"]
    discountPercent := some 10
    paymentMethod := some .cash
    cashAmount := none
    onlineAmount := none
    razorpayPaymentId := none }

/-- The document `post exDb exReqCash` persists. -/
def exVisitCash : Visit :=
  { services := [⟨"Cut", 300⟩, ⟨"Colour", 500⟩]
    subtotal := 800
    discountPercent := 10
    discountAmount := 80
    finalTotal := 720
    paymentMethod := .cash
    cashAmount := 720
    onlineAmount := 0
    paymentStatus := "success"
    razorpayPaymentId := none }

/-- Partial-mode request: 720 total, 200 in cash, rest online. -/
def exReqPartial : VisitsRoute.Req :=
  { serviceIds := ["aaaaaaaaaaaaaaaaaaaaaaaa", "bbbbbbbbbbbbbbbbbbbbbbbb"]
    discountPercent := some 10
    paymentMethod := some .partialPay
    cashAmount := some 200
    onlineAmount := none
    razorpayPaymentId := some "pay_w" }

/-- The document `post exDb exReqPartial` persists. -/
def exVisitPartial : Visit :=
  { services := [⟨"Cut", 300⟩, ⟨"Colour", 500⟩]
    subtotal := 800
    discountPercent := 10
    discountAmount := 80
    finalTotal := 720
    paymentMethod := .partialPay
    cashAmount := 200
    onlineAmount := 520
    paymentStatus := "success"
    razorpayPaymentId := some "pay_w" }

/-- Catalog for the C3 counterexample: one active service at ₹10. -/
def dbC3 : List ServiceDoc :=
  [⟨"dddddddddddddddddddddddd", "Trim", 10, true⟩]

/-- Partial-mode request with the legal fractional cashAmount 0.4. -/
def reqC3 : VisitsRoute.Req :=
  { serviceIds := ["dddddddddddddddddddddddd"]
    discountPercent := none
    paymentMethod := some .partialPay
    cashAmount := some (2/5)
    onlineAmount := none
    razorpayPaymentId := some "pay_1" }

/-- The document `post dbC3 reqC3` persists: cashAmount rounds to 0. -/
def visitC3 : Visit :=
  { services := [⟨"Trim", 10⟩]
    subtotal := 10
    discountPercent := 0
    discountAmount := 0
    finalTotal := 10
    paymentMethod := .partialPay
    cashAmount := 0
    onlineAmount := 10
    paymentStatus := "success"
    razorpayPaymentId := some "pay_1" }

/-- Cash-mode request that also submits a gateway payment id. -/
def reqC4 : VisitsRoute.Req :=
  { serviceIds := ["aaaaaaaaaaaaaaaaaaaaaaaa", "bbbbbbbbbbbbbbbbbbbbbbbb"]
    discountPercent := none
    paymentMethod := some .cash
    cashAmount := none
    onlineAmount := none
    razorpayPaymentId := some "pay_X" }

/-- The document `post exDb reqC4` persists: the submitted id is kept. -/
def visitC4 : Visit :=
  { services := [⟨"Cut", 300⟩, ⟨"Colour", 500⟩]
    subtotal := 800
    discountPercent := 0
    discountAmount := 0
    finalTotal := 800
    paymentMethod := .cash
    cashAmount := 800
    onlineAmount := 0
    paymentStatus := "success"
    razorpayPaymentId := some "pay_X" }

/-- Partial-mode request with degenerate cashAmount (equal to the 720
total) AND a missing gateway payment id. -/
def reqC5 : VisitsRoute.Req :=
  { serviceIds := ["aaaaaaaaaaaaaaaaaaaaaaaa", "bbbbbbbbbbbbbbbbbbbbbbbb"]
    discountPercent := some 10
    paymentMethod := some .partialPay
    cashAmount := some 720
    onlineAmount := none
    razorpayPaymentId := none }

/-- Partial-mode request with degenerate cashAmount but a payment id. -/
def reqC5b : VisitsRoute.Req :=
  { serviceIds := ["aaaaaaaaaaaaaaaaaaaaaaaa", "bbbbbbbbbbbbbbbbbbbbbbbb"]
    discountPercent := some 10
    paymentMethod := some .partialPay
    cashAmount := some 720
    onlineAmount := none
    razorpayPaymentId := some "pay_z" }

/-- Request mixing one resolving id with the id of a deactivated row. -/
def reqC8 : VisitsRoute.Req :=
  { serviceIds := ["aaaaaaaaaaaaaaaaaaaaaaaa", "cccccccccccccccccccccccc"]
    discountPercent := none
    paymentMethod := some .cash
    cashAmount := none
    onlineAmount := none
    razorpayPaymentId := none }

/-- The document `post exDb reqC8` persists: only "Cut" is billed. -/
def visitC8 : Visit :=
  { services := [⟨"Cut", 300⟩]
    subtotal := 300
    discountPercent := 0
    discountAmount := 0
    finalTotal := 300
    paymentMethod := .cash
    cashAmount := 300
    onlineAmount := 0
    paymentStatus := "success"
    razorpayPaymentId := none }

/-- create-order request with the legal amount 0.999 (rounds to 100 paise). -/
def reqC9 : AdminRoutes.OrderReq :=
  { name := some "N", phone := some "P", amount := .num (999/1000) }

/-- create-order request with amount 0.5 (rejected: 50 paise). -/
def reqC9half : AdminRoutes.OrderReq :=
  { name := some "N", phone := some "P", amount := .num (1/2) }

/-- create-order request with amount 800 (accepted: 80000 paise). -/
def reqC9b : AdminRoutes.OrderReq :=
  { name := some "N", phone := some "P", amount := .num 800 }

end Examples

open VisitsRoute

/-- Folding addition of a mapped value over a list yields the initial
accumulator plus the sum of the mapped list. -/
theorem foldl_add_eq_sum {α : Type} (g : α → ℚ) (l : List α) (a : ℚ) :
    l.foldl (fun sum x => sum + g x) a = a + (l.map g).sum := by
  induction l generalizing a with
  | nil => simp
  | cons x xs ih => simp [ih, add_assoc]

/-- The handler subtotal is the sum of the snapshot prices. -/
theorem subtotalOf_eq_sum (services : List SvcSnap) :
    subtotalOf services = (services.map SvcSnap.price).sum := by
  simpa using foldl_add_eq_sum SvcSnap.price services 0

/-- Characterization of the accepted runs of POST /api/visits: the
request passes field validation, at least one id resolves, the
per-method payment constraints hold, and the persisted document is
`visitDoc`. -/
theorem post_created_iff {db : List ServiceDoc} {r : Req} {v : Visit} :
    post db r = .created v ↔
      (createRulesOk r = true ∧
       serviceDocsFor db r.serviceIds ≠ [] ∧
       ((methodOf r = .online ∨ methodOf r = .partialPay) →
         truthy r.razorpayPaymentId = true) ∧
       (methodOf r = .partialPay →
         0 < numOr0 r.cashAmount ∧ numOr0 r.cashAmount < finalTotalFor db r) ∧
       v = visitDoc db r) := by
  unfold post
  split_ifs with h1 h2 h3 h4 h5
  · simp only [Bool.not_eq_true'] at h1
    simp [h1]
  · rw [List.length_eq_zero] at h2
    simp [h2]
  · simp only [Bool.and_eq_true, decide_eq_true_eq, Bool.not_eq_true'] at h3
    simp [h3.1, h3.2]
  · simp only [Bool.and_eq_true, decide_eq_true_eq, Bool.not_eq_true'] at h4
    simp [h4.1, h4.2]
  · simp only [Bool.and_eq_true, Bool.or_eq_true, decide_eq_true_eq] at h5
    constructor
    · intro hh; exact absurd hh (by simp)
    · rintro ⟨-, -, -, hp, -⟩
      obtain ⟨hc1, hc2⟩ := hp h5.1
      rcases h5.2 with (h | h) | h <;> linarith
  · simp only [Bool.not_eq_true', Bool.not_eq_false] at h1
    rw [List.length_eq_zero] at h2
    simp only [Bool.and_eq_true, decide_eq_true_eq, Bool.not_eq_true', not_and,
      Bool.not_eq_false] at h3 h4
    simp only [Bool.and_eq_true, Bool.or_eq_true, decide_eq_true_eq] at h5
    push_neg at h5
    constructor
    · intro hh
      have hv : v = visitDoc db r := (Result.created.inj hh).symm
      refine ⟨h1, h2, ?_, ?_, hv⟩
      · rintro (hm | hm)
        · exact h3 hm
        · exact h4 hm
      · intro hm
        exact ⟨(h5 hm).1.2, (h5 hm).2⟩
    · rintro ⟨-, -, -, -, hv⟩
      rw [hv]

/-- Service resolution depends on the submitted ids only through
membership. -/
theorem serviceDocsFor_congr (db : List ServiceDoc) {ids₁ ids₂ : List String}
    (h : ∀ x, x ∈ ids₁ ↔ x ∈ ids₂) :
    serviceDocsFor db ids₁ = serviceDocsFor db ids₂ := by
  unfold serviceDocsFor
  apply List.filter_congr
  intro s _
  have hc : ids₁.contains s.id = ids₂.contains s.id := by
    rw [Bool.eq_iff_iff]
    constructor
    · intro hx; exact List.elem_iff.mpr ((h s.id).mp (List.elem_iff.mp hx))
    · intro hx; exact List.elem_iff.mpr ((h s.id).mpr (List.elem_iff.mp hx))
  rw [hc]

/-- Field validation is invariant under permuting the submitted ids. -/
theorem createRulesOk_perm {r : Req} {ids₂ : List String}
    (hp : ids₂.Perm r.serviceIds) :
    createRulesOk { r with serviceIds := ids₂ } = createRulesOk r := by
  unfold createRulesOk
  have hlen : ids₂.length = r.serviceIds.length := hp.length_eq
  have hall : ids₂.all isMongoId = r.serviceIds.all isMongoId := by
    rw [Bool.eq_iff_iff]
    simp only [List.all_eq_true]
    exact ⟨fun ha x hx => ha x (hp.mem_iff.mpr hx), fun ha x hx => ha x (hp.mem_iff.mp hx)⟩
  simp only [hlen, hall]

/-- The whole handler is invariant under permuting the submitted ids:
selection order never matters. -/
theorem post_perm (db : List ServiceDoc) (r : Req) {ids₂ : List String}
    (hp : ids₂.Perm r.serviceIds) :
    post db { r with serviceIds := ids₂ } = post db r := by
  have hdocs : serviceDocsFor db ids₂ = serviceDocsFor db r.serviceIds :=
    serviceDocsFor_congr db (fun x => hp.mem_iff)
  have hrules := createRulesOk_perm hp
  simp only [post, visitDoc, servicesFor, subtotalFor, finalTotalFor, methodOf,
    hrules, hdocs]

/-- For a request that passes field validation, the handler ignores the
client-sent onlineAmount total. -/
theorem post_onlineAmount_ignored (db : List ServiceDoc) (r : Req) (q : ℚ)
    (hq : 0 ≤ q) (hr : createRulesOk r = true) :
    post db { r with onlineAmount := some q } = post db r := by
  have h1 : createRulesOk { r with onlineAmount := some q } = true := by
    unfold createRulesOk at hr ⊢
    simp only [Bool.and_eq_true] at hr ⊢
    exact ⟨hr.1, by simp [hq]⟩
  have hrules : createRulesOk { r with onlineAmount := some q } = createRulesOk r :=
    h1.trans hr.symm
  simp only [post, visitDoc, servicesFor, subtotalFor, finalTotalFor, methodOf,
    hrules]

/-- Evaluation of the spec scenario: two services at 300 and 500 with a
10% discount, paid in cash, persist as subtotal 800 / discount 80 /
final 720. -/
theorem post_exReqCash_eval :
    post Examples.exDb Examples.exReqCash = .created Examples.exVisitCash := by
  simp [post, visitDoc, createRulesOk, serviceDocsFor, servicesFor, subtotalFor,
    subtotalOf, pctOf, discountAmountOf, finalTotalOf, finalTotalFor, methodOf,
    jsRound, numOr0, truthy, isMongoId, Examples.exDb, Examples.exReqCash,
    Examples.exVisitCash]
  norm_num

/-- C1: the persisted Visit of every accepted POST /api/visits request
carries server-recomputed totals: subtotal is the sum of the resolved
active services prices, discountAmount is round(subtotal times the
clamped discount percent over 100), finalTotal is max 0 (subtotal -
discountAmount); the outcome is invariant under reordering the
selected ids and under any client-sent onlineAmount total. -/
theorem claim_C1_server_billing (db : List ServiceDoc) (r : Req) (v : Visit)
    (h : post db r = .created v) :
    v.subtotal = ((serviceDocsFor db r.serviceIds).map (fun s => s.price)).sum ∧
    v.discountAmount =
      jsRound (v.subtotal * (min 100 (max 0 (numOr0 r.discountPercent)) / 100)) ∧
    v.finalTotal = max 0 (v.subtotal - (v.discountAmount : ℚ)) ∧
    (∀ ids₂ : List String, ids₂.Perm r.serviceIds →
      post db { r with serviceIds := ids₂ } = .created v) ∧
    (∀ q : ℚ, 0 ≤ q → post db { r with onlineAmount := some q } = .created v) := by
  have hv := (post_created_iff.mp h).2.2.2.2
  subst hv
  refine ⟨?_, rfl, rfl, ?_, ?_⟩
  · simp only [visitDoc, subtotalFor, servicesFor, subtotalOf_eq_sum, List.map_map]
    rfl
  · intro ids₂ hp
    rw [post_perm db r hp]
    exact h
  · intro q hq
    rw [post_onlineAmount_ignored db r q hq (post_created_iff.mp h).1]
    exact h

/-- C1 witness: the spec scenario instantiates the theorem. -/
theorem claim_C1_witness :
    Examples.exVisitCash.subtotal =
      ((serviceDocsFor Examples.exDb Examples.exReqCash.serviceIds).map
        (fun s => s.price)).sum ∧
    Examples.exVisitCash.discountAmount =
      jsRound (Examples.exVisitCash.subtotal *
        (min 100 (max 0 (numOr0 Examples.exReqCash.discountPercent)) / 100)) ∧
    Examples.exVisitCash.finalTotal =
      max 0 (Examples.exVisitCash.subtotal - (Examples.exVisitCash.discountAmount : ℚ)) ∧
    (∀ ids₂ : List String, ids₂.Perm Examples.exReqCash.serviceIds →
      post Examples.exDb { Examples.exReqCash with serviceIds := ids₂ } =
        .created Examples.exVisitCash) ∧
    (∀ q : ℚ, 0 ≤ q →
      post Examples.exDb { Examples.exReqCash with onlineAmount := some q } =
        .created Examples.exVisitCash) :=
  claim_C1_server_billing Examples.exDb Examples.exReqCash Examples.exVisitCash
    post_exReqCash_eval

/-- C10: every Visit document persisted by POST /api/visits carries
paymentStatus "success"; the creation route never writes the schema
values "pending" or "failed". -/
theorem claim_C10_paymentStatus (db : List ServiceDoc) (r : Req) (v : Visit)
    (h : post db r = .created v) :
    v.paymentStatus = "success" ∧
    v.paymentStatus ≠ "pending" ∧ v.paymentStatus ≠ "failed" := by
  have hv := (post_created_iff.mp h).2.2.2.2
  subst hv
  refine ⟨rfl, ?_, ?_⟩
  · show ("success" : String) ≠ "pending"
    decide
  · show ("success" : String) ≠ "failed"
    decide

/-- C10 witness: the spec scenario instantiates the theorem. -/
theorem claim_C10_witness :
    Examples.exVisitCash.paymentStatus = "success" ∧
    Examples.exVisitCash.paymentStatus ≠ "pending" ∧
    Examples.exVisitCash.paymentStatus ≠ "failed" :=
  claim_C10_paymentStatus Examples.exDb Examples.exReqCash Examples.exVisitCash
    post_exReqCash_eval

/-- C2: POST /api/verify-order-payment succeeds exactly when all three
gateway identifiers are present (truthy) and the supplied signature
equals the HMAC-SHA256 hex digest of orderId ++ "|" ++ paymentId under
the server secret; missing identifiers give 400 "Missing payment
parameters", a mismatch gives 400 "Invalid payment signature", and the
Visit collection is never touched. -/
theorem claim_C2_signature (hmacSha256 : String → String) (visits : List Visit)
    (r : AdminRoutes.VerifyReq) :
    ((∃ p o, (AdminRoutes.verifyOrderPayment hmacSha256 visits r).1 = .ok p o) ↔
      (truthy r.orderId = true ∧ truthy r.paymentId = true ∧
        truthy r.signature = true ∧
        r.signature.getD "" =
          hmacSha256 (r.orderId.getD "" ++ "|" ++ r.paymentId.getD ""))) ∧
    (¬(truthy r.orderId = true ∧ truthy r.paymentId = true ∧
        truthy r.signature = true) →
      (AdminRoutes.verifyOrderPayment hmacSha256 visits r).1 =
        .reject 400 "Missing payment parameters") ∧
    ((truthy r.orderId = true ∧ truthy r.paymentId = true ∧
        truthy r.signature = true) →
      r.signature.getD "" ≠
        hmacSha256 (r.orderId.getD "" ++ "|" ++ r.paymentId.getD "") →
      (AdminRoutes.verifyOrderPayment hmacSha256 visits r).1 =
        .reject 400 "Invalid payment signature") ∧
    (AdminRoutes.verifyOrderPayment hmacSha256 visits r).2 = visits := by
  unfold AdminRoutes.verifyOrderPayment
  split_ifs with h1 h2
  · simp only [Bool.or_eq_true, Bool.not_eq_true'] at h1
    refine ⟨?_, fun _ => rfl, ?_, rfl⟩
    · constructor
      · rintro ⟨p, o, hh⟩; simp at hh
      · rintro ⟨ho, hp, hs, -⟩
        rcases h1 with (h | h) | h <;> simp_all
    · rintro ⟨ho, hp, hs⟩ -
      rcases h1 with (h | h) | h <;> simp_all
  · simp only [Bool.or_eq_true, Bool.not_eq_true', not_or, Bool.not_eq_false] at h1
    refine ⟨?_, ?_, fun _ _ => rfl, rfl⟩
    · constructor
      · rintro ⟨p, o, hh⟩; simp at hh
      · rintro ⟨-, -, -, hsig⟩; exact absurd hsig.symm h2
    · intro hno; exact absurd ⟨h1.1.1, h1.1.2, h1.2⟩ hno
  · simp only [Bool.or_eq_true, Bool.not_eq_true', not_or, Bool.not_eq_false] at h1
    have hsig := not_ne_iff.mp h2
    refine ⟨?_, ?_, ?_, rfl⟩
    · exact ⟨fun _ => ⟨h1.1.1, h1.1.2, h1.2, hsig.symm⟩, fun _ => ⟨_, _, rfl⟩⟩
    · intro hno; exact absurd ⟨h1.1.1, h1.1.2, h1.2⟩ hno
    · rintro - hne; exact absurd hsig.symm hne

/-- C2 witness: a concrete digest function and request instantiate the
theorem (matching signature accepted, collection untouched). -/
theorem claim_C2_witness :
    ((∃ p o,
        (AdminRoutes.verifyOrderPayment (fun s => s) []
          ⟨some "order1", some "pay1", some "order1|pay1"⟩).1 = .ok p o) ↔
      (truthy (some "order1") = true ∧ truthy (some "pay1") = true ∧
        truthy (some "order1|pay1") = true ∧
        (some "order1|pay1" : Option String).getD "" =
          (fun s : String => s)
            ((some "order1" : Option String).getD "" ++ "|" ++
              (some "pay1" : Option String).getD ""))) ∧
    (¬(truthy (some "order1") = true ∧ truthy (some "pay1") = true ∧
        truthy (some "order1|pay1") = true) →
      (AdminRoutes.verifyOrderPayment (fun s => s) []
        ⟨some "order1", some "pay1", some "order1|pay1"⟩).1 =
          .reject 400 "Missing payment parameters") ∧
    ((truthy (some "order1") = true ∧ truthy (some "pay1") = true ∧
        truthy (some "order1|pay1") = true) →
      (some "order1|pay1" : Option String).getD "" ≠
        (fun s : String => s)
          ((some "order1" : Option String).getD "" ++ "|" ++
            (some "pay1" : Option String).getD "") →
      (AdminRoutes.verifyOrderPayment (fun s => s) []
        ⟨some "order1", some "pay1", some "order1|pay1"⟩).1 =
          .reject 400 "Invalid payment signature") ∧
    (AdminRoutes.verifyOrderPayment (fun s => s) []
      ⟨some "order1", some "pay1", some "order1|pay1"⟩).2 = ([] : List Visit) :=
  claim_C2_signature (fun s => s) [] ⟨some "order1", some "pay1", some "order1|pay1"⟩

/-- Evaluation: a cash-mode request that also smuggles a gateway
payment id is accepted and the id is stored as submitted. -/
theorem post_reqC4_eval :
    post Examples.exDb Examples.reqC4 = .created Examples.visitC4 := by
  simp [post, visitDoc, createRulesOk, serviceDocsFor, servicesFor, subtotalFor,
    subtotalOf, pctOf, discountAmountOf, finalTotalOf, finalTotalFor, methodOf,
    jsRound, numOr0, truthy, isMongoId, Examples.exDb, Examples.reqC4,
    Examples.visitC4]
  norm_num

/-- C4 counterexample: a cash-mode request body carrying a gateway
payment id is persisted with that id, not with null — so
"razorpayPaymentId = null for all request bodies" fails. -/
theorem claim_C4_counterexample :
    post Examples.exDb Examples.reqC4 = .created Examples.visitC4 ∧
    Examples.visitC4.paymentMethod = .cash ∧
    Examples.visitC4.razorpayPaymentId ≠ none := by
  refine ⟨post_reqC4_eval, rfl, ?_⟩
  show (some "pay_X" : Option String) ≠ none
  decide

/-- C4 amended: for every accepted cash-mode request the stored split
is cashAmount = finalTotal and onlineAmount = 0; the stored
razorpayPaymentId is null whenever the request supplies no (truthy)
gateway payment id. -/
theorem claim_C4_amended_cash_mode (db : List ServiceDoc) (r : Req) (v : Visit)
    (h : post db r = .created v) (hm : v.paymentMethod = .cash) :
    v.cashAmount = v.finalTotal ∧ v.onlineAmount = 0 ∧
    (truthy r.razorpayPaymentId = false → v.razorpayPaymentId = none) := by
  have hv := (post_created_iff.mp h).2.2.2.2
  subst hv
  have hm' : methodOf r = .cash := hm
  refine ⟨?_, ?_, ?_⟩
  · simp [visitDoc, hm']
  · simp [visitDoc, hm']
  · intro hfalse
    simp [visitDoc, hfalse]

/-- C4 witness: the cash spec scenario instantiates the amended claim. -/
theorem claim_C4_witness :
    Examples.exVisitCash.cashAmount = Examples.exVisitCash.finalTotal ∧
    Examples.exVisitCash.onlineAmount = 0 ∧
    (truthy Examples.exReqCash.razorpayPaymentId = false →
      Examples.exVisitCash.razorpayPaymentId = none) :=
  claim_C4_amended_cash_mode Examples.exDb Examples.exReqCash Examples.exVisitCash
    post_exReqCash_eval rfl

/-- C5 counterexample: a partial-mode request whose cashAmount equals
the 720 total but whose gateway payment id is missing is rejected with
the payment-id message, not the degenerate-split message the claim
requires. -/
theorem claim_C5_counterexample :
    numOr0 Examples.reqC5.cashAmount = finalTotalFor Examples.exDb Examples.reqC5 ∧
    post Examples.exDb Examples.reqC5 =
      .error 400 "Razorpay Payment ID is required for partial payment" ∧
    post Examples.exDb Examples.reqC5 ≠
      .error 400 "Cash amount must be between ₹1 and total minus ₹1 for partial payment" := by
  have he : post Examples.exDb Examples.reqC5 =
      .error 400 "Razorpay Payment ID is required for partial payment" := by
    simp [post, createRulesOk, serviceDocsFor, servicesFor, subtotalFor, subtotalOf,
      pctOf, discountAmountOf, finalTotalOf, finalTotalFor, methodOf, jsRound,
      numOr0, truthy, isMongoId, Examples.exDb, Examples.reqC5] <;> norm_num
  refine ⟨?_, he, ?_⟩
  · simp [finalTotalFor, finalTotalOf, subtotalFor, subtotalOf, servicesFor,
      serviceDocsFor, discountAmountOf, pctOf, jsRound, numOr0, Examples.exDb,
      Examples.reqC5]
    norm_num
  · rw [he]; simp

/-- C5 amended: a partial-mode request that passes field validation,
supplies a gateway payment id and resolves at least one active service
is rejected with 400 and the degenerate-split message whenever its
cashAmount is absent, zero or at least the server-computed finalTotal,
and no Visit document is created. -/
theorem claim_C5_amended (db : List ServiceDoc) (visits : List Visit) (r : Req)
    (hval : createRulesOk r = true)
    (hm : methodOf r = .partialPay)
    (hid : truthy r.razorpayPaymentId = true)
    (hres : serviceDocsFor db r.serviceIds ≠ [])
    (hbad : numOr0 r.cashAmount ≤ 0 ∨ finalTotalFor db r ≤ numOr0 r.cashAmount) :
    post db r =
      .error 400 "Cash amount must be between ₹1 and total minus ₹1 for partial payment" ∧
    visitsAfter db visits r = visits := by
  have hpost : post db r =
      .error 400 "Cash amount must be between ₹1 and total minus ₹1 for partial payment" := by
    rcases hbad with hb | hb <;>
      simp [post, hval, hm, hid, hres, List.length_eq_zero, hb]
  exact ⟨hpost, by simp [visitsAfter, hpost]⟩

/-- Evaluation: the server-computed finalTotal of the degenerate
partial request with a payment id. -/
theorem finalTotal_reqC5b_eval :
    finalTotalFor Examples.exDb Examples.reqC5b = 720 := by
  simp [finalTotalFor, finalTotalOf, subtotalFor, subtotalOf, servicesFor,
    serviceDocsFor, discountAmountOf, pctOf, jsRound, numOr0, Examples.exDb,
    Examples.reqC5b]
  norm_num

/-- C5 witness: cashAmount 720 against total 720 (with a payment id)
instantiates the amended claim. -/
theorem claim_C5_witness :
    post Examples.exDb Examples.reqC5b =
      .error 400 "Cash amount must be between ₹1 and total minus ₹1 for partial payment" ∧
    visitsAfter Examples.exDb [] Examples.reqC5b = [] :=
  claim_C5_amended Examples.exDb [] Examples.reqC5b
    (by simp [createRulesOk, isMongoId, Examples.reqC5b] <;> norm_num)
    rfl
    (by decide)
    (by decide)
    (Or.inr (by rw [finalTotal_reqC5b_eval]; norm_num [numOr0, Examples.reqC5b]))

/-- C9 counterexample: amount 0.999 is below one currency unit yet
`Math.round(0.999 * 100) = 100`, so create-order accepts it and
creates a 100-paise order — refuting "rejects every amount below 1". -/
theorem claim_C9_counterexample :
    (999/1000 : ℚ) < 1 ∧
    AdminRoutes.createOrder true Examples.reqC9 = .created 100 := by
  constructor
  · norm_num
  · simp [AdminRoutes.createOrder, AdminRoutes.validatePaymentInput,
      AdminRoutes.amountTruthy, truthy, jsRound, Examples.reqC9]
    norm_num

/-- C9 amended: create-order rejects with 400 every request whose
amount is absent, non-numeric, or rounds below 100 paise; every
accepted request creates the gateway order for exactly
round(amount times 100) paise, which is at least 100. -/
theorem claim_C9_amended (r : AdminRoutes.OrderReq) :
    ((r.amount = .absent ∨ r.amount = .nonNumeric ∨
        (∃ q, r.amount = .num q ∧ jsRound (q * 100) < 100)) →
      ∃ m, AdminRoutes.createOrder true r = .err 400 m) ∧
    (∀ p : ℤ, AdminRoutes.createOrder true r = .created p →
      ∃ q, r.amount = .num q ∧ p = jsRound (q * 100) ∧ 100 ≤ p) := by
  constructor
  · intro hbad
    rcases hbad with ha | ha | ⟨q, ha, hlt⟩
    · exact ⟨"name, phone and amount are required",
        by simp [AdminRoutes.createOrder, AdminRoutes.validatePaymentInput,
          ha, AdminRoutes.amountTruthy]⟩
    · cases hn : truthy r.name with
      | false => exact ⟨"name, phone and amount are required",
          by simp [AdminRoutes.createOrder, AdminRoutes.validatePaymentInput, hn]⟩
      | true => cases hp : truthy r.phone with
        | false => exact ⟨"name, phone and amount are required",
            by simp [AdminRoutes.createOrder, AdminRoutes.validatePaymentInput, hn, hp]⟩
        | true => exact ⟨"Amount must be at least ₹1",
            by simp [AdminRoutes.createOrder, AdminRoutes.validatePaymentInput,
              hn, hp, ha, AdminRoutes.amountTruthy]⟩
    · cases hn : truthy r.name with
      | false => exact ⟨"name, phone and amount are required",
          by simp [AdminRoutes.createOrder, AdminRoutes.validatePaymentInput, hn]⟩
      | true => cases hp : truthy r.phone with
        | false => exact ⟨"name, phone and amount are required",
            by simp [AdminRoutes.createOrder, AdminRoutes.validatePaymentInput, hn, hp]⟩
        | true => exact ⟨"Amount must be at least ₹1",
            by simp [AdminRoutes.createOrder, AdminRoutes.validatePaymentInput,
              hn, hp, ha, AdminRoutes.amountTruthy, hlt]⟩
  · intro p hp
    cases hv : AdminRoutes.validatePaymentInput r with
    | error e =>
      rw [AdminRoutes.createOrder] at hp
      simp [hv] at hp
    | ok paise =>
      rw [AdminRoutes.createOrder] at hp
      simp [hv] at hp
      unfold AdminRoutes.validatePaymentInput at hv
      split_ifs at hv with h1
      cases ha : r.amount with
        | absent => rw [ha] at hv; simp at hv
        | nonNumeric => rw [ha] at hv; simp at hv
        | num q =>
          rw [ha] at hv
          simp only at hv
          split_ifs at hv with h2
          have hv2 : jsRound (q * 100) = paise := by injection hv
          refine ⟨q, rfl, ?_, ?_⟩
          · rw [← hp]; exact hv2.symm
          · rw [← hp, ← hv2]; exact not_lt.mp h2

/-- Evaluation: amount 800 creates an 80000-paise order. -/
theorem createOrder_reqC9b_eval :
    AdminRoutes.createOrder true Examples.reqC9b = .created 80000 := by
  simp [AdminRoutes.createOrder, AdminRoutes.validatePaymentInput,
    AdminRoutes.amountTruthy, truthy, jsRound, Examples.reqC9b]
  norm_num

/-- C9 witness: amount 0.5 is rejected, amount 800 creates an order of
exactly 80000 paise. -/
theorem claim_C9_witness :
    (∃ m, AdminRoutes.createOrder true Examples.reqC9half = .err 400 m) ∧
    (∃ q, Examples.reqC9b.amount = .num q ∧ (80000 : ℤ) = jsRound (q * 100) ∧
      100 ≤ (80000 : ℤ)) := by
  constructor
  · exact (claim_C9_amended Examples.reqC9half).1
      (Or.inr (Or.inr ⟨1/2, rfl, by norm_num [jsRound]⟩))
  · exact (claim_C9_amended Examples.reqC9b).2 80000 createOrder_reqC9b_eval

/-- JS Math.round is the identity on whole numbers. -/
theorem jsRound_intCast (n : ℤ) : jsRound (n : ℚ) = n := by
  unfold jsRound
  rw [add_comm, Int.floor_add_int]
  norm_num

/-- A sum of integer-valued prices is integer-valued. -/
theorem sum_intCast_of_forall {l : List ServiceDoc}
    (h : ∀ s ∈ l, ∃ m : ℤ, s.price = (m : ℚ)) :
    ∃ k : ℤ, ((l.map (fun s => s.price)).sum : ℚ) = (k : ℚ) := by
  induction l with
  | nil => exact ⟨0, by simp⟩
  | cons a l ih =>
    obtain ⟨m, hm⟩ := h a (List.mem_cons_self a l)
    obtain ⟨k, hk⟩ := ih (fun s hs => h s (List.mem_cons_of_mem _ hs))
    refine ⟨m + k, ?_⟩
    rw [List.map_cons, List.sum_cons, hm, hk]
    push_cast
    ring

/-- The handler subtotal equals the sum over the resolved documents. -/
theorem subtotalFor_eq_sum (db : List ServiceDoc) (r : Req) :
    subtotalFor db r = ((serviceDocsFor db r.serviceIds).map (fun s => s.price)).sum := by
  simp only [subtotalFor, servicesFor, subtotalOf_eq_sum, List.map_map]
  rfl

/-- Evaluation: partial payment of 0.4 against a ₹10 total is accepted
and stored with cashAmount 0 (Math.round(0.4) = 0) and onlineAmount 10. -/
theorem post_reqC3_eval :
    post Examples.dbC3 Examples.reqC3 = .created Examples.visitC3 := by
  simp [post, visitDoc, createRulesOk, serviceDocsFor, servicesFor, subtotalFor,
    subtotalOf, pctOf, discountAmountOf, finalTotalOf, finalTotalFor, methodOf,
    jsRound, numOr0, truthy, isMongoId, Examples.dbC3, Examples.reqC3,
    Examples.visitC3]
  norm_num

/-- Evaluation: the spec partial scenario (720 total, 200 cash). -/
theorem post_exReqPartial_eval :
    post Examples.exDb Examples.exReqPartial = .created Examples.exVisitPartial := by
  simp [post, visitDoc, createRulesOk, serviceDocsFor, servicesFor, subtotalFor,
    subtotalOf, pctOf, discountAmountOf, finalTotalOf, finalTotalFor, methodOf,
    jsRound, numOr0, truthy, isMongoId, Examples.exDb, Examples.exReqPartial,
    Examples.exVisitPartial]
  norm_num

/-- C3 counterexample: the accepted partial request with the legal
fractional cashAmount 0.4 stores cashAmount 0, refuting "both stored
amounts are strictly greater than 0". -/
theorem claim_C3_counterexample :
    post Examples.dbC3 Examples.reqC3 = .created Examples.visitC3 ∧
    Examples.visitC3.paymentMethod = .partialPay ∧
    ¬(0 < Examples.visitC3.cashAmount) := by
  refine ⟨post_reqC3_eval, rfl, ?_⟩
  norm_num [Examples.visitC3]

/-- C3 amended: for every accepted partial-mode request the stored
split satisfies cashAmount + onlineAmount = finalTotal exactly; when
moreover the submitted cashAmount and every catalog price are whole
numbers, both stored amounts are positive and onlineAmount ≥ 1. -/
theorem claim_C3_amended_split (db : List ServiceDoc) (r : Req) (v : Visit)
    (h : post db r = .created v) (hm : v.paymentMethod = .partialPay) :
    v.cashAmount + v.onlineAmount = v.finalTotal ∧
    ((∃ n : ℤ, numOr0 r.cashAmount = (n : ℚ)) →
      (∀ s ∈ db, ∃ m : ℤ, s.price = (m : ℚ)) →
      0 < v.cashAmount ∧ 0 < v.onlineAmount ∧ 1 ≤ v.onlineAmount) := by
  obtain ⟨-, -, -, hpv, hv⟩ := post_created_iff.mp h
  subst hv
  have hm' : methodOf r = .partialPay := hm
  obtain ⟨hpos, hlt⟩ := hpv hm'
  constructor
  · simp [visitDoc, hm']
  · rintro ⟨n, hn⟩ hint
    have hcash : (visitDoc db r).cashAmount = (n : ℚ) := by
      simp [visitDoc, hm', hn, jsRound_intCast]
    obtain ⟨k, hk⟩ : ∃ k : ℤ, subtotalFor db r = (k : ℚ) := by
      have hall : ∀ s ∈ serviceDocsFor db r.serviceIds, ∃ m : ℤ, s.price = (m : ℚ) :=
        fun s hs => hint s (List.mem_of_mem_filter hs)
      obtain ⟨k, hk⟩ := sum_intCast_of_forall hall
      exact ⟨k, by rw [subtotalFor_eq_sum]; exact hk⟩
    obtain ⟨m, hmq⟩ : ∃ m : ℤ, finalTotalFor db r = (m : ℚ) := by
      refine ⟨max 0 (k - discountAmountOf (k : ℚ) (pctOf r.discountPercent)), ?_⟩
      rw [finalTotalFor, finalTotalOf, hk]
      push_cast
      rfl
    have honline : (visitDoc db r).onlineAmount = ((m : ℚ) - (n : ℚ)) := by
      simp [visitDoc, hm', hn, jsRound_intCast, ← hmq]
    have hnpos : 0 < n := by
      rw [hn] at hpos
      exact_mod_cast hpos
    have hnm : n < m := by
      rw [hn, hmq] at hlt
      exact_mod_cast hlt
    have h1m : n + 1 ≤ m := hnm
    refine ⟨?_, ?_, ?_⟩
    · rw [hcash]; exact_mod_cast hnpos
    · rw [honline]
      have : (n : ℚ) < (m : ℚ) := by exact_mod_cast hnm
      linarith
    · rw [honline]
      have : ((n : ℚ) + 1) ≤ (m : ℚ) := by exact_mod_cast h1m
      linarith

/-- C3 witness: the spec partial scenario (cash 200 of 720)
instantiates the amended claim. -/
theorem claim_C3_witness :
    Examples.exVisitPartial.cashAmount + Examples.exVisitPartial.onlineAmount =
      Examples.exVisitPartial.finalTotal ∧
    (0 < Examples.exVisitPartial.cashAmount ∧
      0 < Examples.exVisitPartial.onlineAmount ∧
      1 ≤ Examples.exVisitPartial.onlineAmount) := by
  have h := claim_C3_amended_split Examples.exDb Examples.exReqPartial
    Examples.exVisitPartial post_exReqPartial_eval rfl
  refine ⟨h.1, h.2 ⟨200, by norm_num [numOr0, Examples.exReqPartial]⟩ ?_⟩
  intro s hs
  simp [Examples.exDb] at hs
  rcases hs with h3 | h5 | h1 <;> subst_vars
  · exact ⟨300, by norm_num⟩
  · exact ⟨500, by norm_num⟩
  · exact ⟨100, by norm_num⟩

/-- C7 counterexample: at the legal fractional subtotal 0.4,
finalTotal at 100% discount is 0.4, not 0 (round(0.4) = 0). -/
theorem claim_C7_counterexample :
    (0 : ℚ) ≤ 2/5 ∧ finalTotalOf (2/5) 100 ≠ 0 := by
  constructor
  · norm_num
  · norm_num [finalTotalOf, discountAmountOf, jsRound]

/-- C7 amended: for every subtotal ≥ 0 the computed finalTotal is
non-increasing in the discount percent over [0,100] and equals the
subtotal at 0%; at 100% it is 0 whenever the subtotal is a whole
number. -/
theorem claim_C7_discount_monotone :
    (∀ s p₁ p₂ : ℚ, 0 ≤ s → 0 ≤ p₁ → p₁ ≤ p₂ → p₂ ≤ 100 →
      finalTotalOf s p₂ ≤ finalTotalOf s p₁) ∧
    (∀ s : ℚ, 0 ≤ s → finalTotalOf s 0 = s) ∧
    (∀ n : ℕ, finalTotalOf (n : ℚ) 100 = 0) := by
  refine ⟨?_, ?_, ?_⟩
  · intro s p₁ p₂ hs hp1 h12 h100
    unfold finalTotalOf
    have hd : discountAmountOf s p₁ ≤ discountAmountOf s p₂ := by
      unfold discountAmountOf jsRound
      apply Int.floor_le_floor
      have hmul : s * (p₁ / 100) ≤ s * (p₂ / 100) := by gcongr
      linarith
    apply max_le_max le_rfl
    have hdq : ((discountAmountOf s p₁ : ℤ) : ℚ) ≤ ((discountAmountOf s p₂ : ℤ) : ℚ) := by
      exact_mod_cast hd
    linarith
  · intro s hs
    unfold finalTotalOf discountAmountOf jsRound
    rw [show s * (0 / 100) = 0 by ring]
    norm_num [hs]
  · intro n
    unfold finalTotalOf discountAmountOf jsRound
    rw [show (n : ℚ) * (100 / 100) = (n : ℚ) by ring, add_comm, Int.floor_add_nat]
    norm_num

/-- C7 witness: concrete instances of monotonicity and both endpoints. -/
theorem claim_C7_witness :
    finalTotalOf 800 20 ≤ finalTotalOf 800 10 ∧
    finalTotalOf 800 0 = 800 ∧
    finalTotalOf ((5 : ℕ) : ℚ) 100 = 0 :=
  ⟨claim_C7_discount_monotone.1 800 10 20 (by norm_num) (by norm_num) (by norm_num)
      (by norm_num),
   claim_C7_discount_monotone.2.1 800 (by norm_num),
   claim_C7_discount_monotone.2.2 5⟩

/-- C8: for every validated request, ids that resolve to no active
Service row are dropped silently — appending any well-formed but
unresolvable ids never changes the outcome, and the persisted Visit
bills and snapshots exactly the resolved documents; when no id
resolves, the request is rejected with 400 "No valid active services
found" and no Visit is created. -/
theorem claim_C8_invalid_ids_dropped (db : List ServiceDoc) (visits : List Visit)
    (r : Req) (hval : createRulesOk r = true) :
    (serviceDocsFor db r.serviceIds = [] →
      post db r = .error 400 "No valid active services found" ∧
      visitsAfter db visits r = visits) ∧
    (∀ v, post db r = .created v →
      v.services = (serviceDocsFor db r.serviceIds).map
        (fun s => ⟨s.name, s.price⟩) ∧
      v.subtotal = ((serviceDocsFor db r.serviceIds).map (fun s => s.price)).sum) ∧
    (∀ junk : List String, junk.all isMongoId = true →
      (∀ i ∈ junk, ∀ s ∈ db, s.isActive = true → s.id ≠ i) →
      post db { r with serviceIds := r.serviceIds ++ junk } = post db r) := by
  refine ⟨?_, ?_, ?_⟩
  · intro hempty
    have hpost : post db r = .error 400 "No valid active services found" := by
      unfold post
      rw [if_neg (by simp [hval]), if_pos (by simp [hempty])]
    exact ⟨hpost, by simp [visitsAfter, hpost]⟩
  · intro v h
    have hv := (post_created_iff.mp h).2.2.2.2
    subst hv
    exact ⟨rfl, subtotalFor_eq_sum db r⟩
  · intro junk hjunkval hjunk
    have hdocs : serviceDocsFor db (r.serviceIds ++ junk) =
        serviceDocsFor db r.serviceIds := by
      unfold serviceDocsFor
      apply List.filter_congr
      intro s hs
      cases hact : s.isActive with
      | false => simp
      | true =>
        simp only [Bool.true_and]
        rw [Bool.eq_iff_iff]
        simp only [List.elem_iff, List.mem_append]
        constructor
        · rintro (hmem | hmem)
          · exact hmem
          · exact absurd rfl (hjunk s.id hmem s hs hact)
        · intro hmem; exact Or.inl hmem
    have hrules : createRulesOk { r with serviceIds := r.serviceIds ++ junk } =
        createRulesOk r := by
      have h2 : createRulesOk { r with serviceIds := r.serviceIds ++ junk } = true := by
        unfold createRulesOk at hval ⊢
        simp only [Bool.and_eq_true, decide_eq_true_eq] at hval ⊢
        refine ⟨⟨⟨⟨?_, ?_⟩, hval.1.1.2⟩, hval.1.2⟩, hval.2⟩
        · rw [List.length_append]
          exact le_trans hval.1.1.1.1 (Nat.le_add_right _ _)
        · rw [List.all_append]
          simp only [Bool.and_eq_true]
          exact ⟨hval.1.1.1.2, hjunkval⟩
      exact h2.trans hval.symm
    simp only [post, visitDoc, servicesFor, subtotalFor, finalTotalFor, methodOf,
      hdocs, hrules]

/-- C8 witness: one resolving id mixed with the id of a deactivated
row instantiates the theorem. -/
theorem claim_C8_witness :
    (serviceDocsFor Examples.exDb Examples.reqC8.serviceIds = [] →
      post Examples.exDb Examples.reqC8 = .error 400 "No valid active services found" ∧
      visitsAfter Examples.exDb [] Examples.reqC8 = []) ∧
    (∀ v, post Examples.exDb Examples.reqC8 = .created v →
      v.services = (serviceDocsFor Examples.exDb Examples.reqC8.serviceIds).map
        (fun s => ⟨s.name, s.price⟩) ∧
      v.subtotal = ((serviceDocsFor Examples.exDb Examples.reqC8.serviceIds).map
        (fun s => s.price)).sum) ∧
    (∀ junk : List String, junk.all isMongoId = true →
      (∀ i ∈ junk, ∀ s ∈ Examples.exDb, s.isActive = true → s.id ≠ i) →
      post Examples.exDb { Examples.reqC8 with serviceIds := Examples.reqC8.serviceIds ++ junk } =
        post Examples.exDb Examples.reqC8) :=
  claim_C8_invalid_ids_dropped Examples.exDb [] Examples.reqC8 (by decide)

/-- In a list whose keys are pairwise distinct, find? by key returns
the unique element carrying that key. -/
theorem find_key_unique {α : Type} (key : α → String) {l : List α}
    (hnd : (l.map key).Nodup) {c : α} (hc : c ∈ l) {i : String} (hid : key c = i) :
    l.find? (fun x => key x == i) = some c := by
  induction l with
  | nil => cases hc
  | cons a l ih =>
    rw [List.map_cons, List.nodup_cons] at hnd
    rcases List.mem_cons.mp hc with hca | hcl
    · have hai : key a = i := by rw [← hca]; exact hid
      have hpred : ((fun x => key x == i) a) = true := by
        simp only [beq_iff_eq]; exact hai
      rw [hca]
      exact List.find?_cons_of_pos _ hpred
    · by_cases hai : key a = i
      · exfalso
        apply hnd.1
        rw [hai, ← hid]
        exact List.mem_map_of_mem key hcl
      · have hpred : ¬((fun x => key x == i) a) = true := by
          simp only [beq_iff_eq]; exact hai
        have hstep : List.find? (fun x => key x == i) (a :: l) =
            List.find? (fun x => key x == i) l := List.find?_cons_of_neg _ hpred
        rw [hstep]
        exact ih hnd.2 hcl

/-- find? by key is invariant under permutation when keys are unique. -/
theorem find_key_of_perm {α : Type} (key : α → String) {l₁ l₂ : List α}
    (hp : l₁.Perm l₂) (hnd : (l₂.map key).Nodup) (i : String) :
    l₁.find? (fun x => key x == i) = l₂.find? (fun x => key x == i) := by
  cases h₂ : l₂.find? (fun x => key x == i) with
  | none =>
    rw [List.find?_eq_none] at h₂ ⊢
    intro x hx
    exact h₂ x (hp.mem_iff.mp hx)
  | some c =>
    have hc₂ : c ∈ l₂ := List.mem_of_find?_eq_some h₂
    have hpred := List.find?_some h₂
    have hid : key c = i := by simpa using hpred
    have hnd₁ : (l₁.map key).Nodup := ((hp.map key).nodup_iff).mpr hnd
    exact find_key_unique key hnd₁ (hp.mem_iff.mpr hc₂) hid

/-- The hook subtotal is the sum of the per-id catalog lookups. -/
theorem hook_subtotal_eq_sum (services : List UseVisitForm.CatalogItem)
    (sel : List String) :
    UseVisitForm.subtotal services sel =
      (sel.map (fun i =>
        (((services.find? (fun s => s.id == i)).map (fun s => s.price)).getD 0))).sum := by
  unfold UseVisitForm.subtotal
  simpa using foldl_add_eq_sum
    (fun i => (((services.find? (fun s => s.id == i)).map (fun s => s.price)).getD 0))
    sel 0

/-- The ids of the form-data service list are pairwise distinct when
the catalog ids are. -/
theorem formData_keys_nodup {db : List ServiceDoc}
    (hdb : (db.map (fun s => s.id)).Nodup) :
    ((UseVisitForm.formDataServices db).map (fun c => c.id)).Nodup := by
  unfold UseVisitForm.formDataServices
  rw [List.map_map]
  have heq : ((fun c : UseVisitForm.CatalogItem => c.id) ∘
      (fun s : ServiceDoc => (⟨s.id, s.name, s.price⟩ : UseVisitForm.CatalogItem))) =
      fun s : ServiceDoc => s.id := rfl
  rw [heq]
  exact hdb.sublist ((List.filter_sublist db).map _)

/-- Splitting a filtered sum over a pointwise disjunction of disjoint
predicates. -/
theorem filter_or_sum (f : ServiceDoc → ℚ) (p q : ServiceDoc → Bool)
    (l : List ServiceDoc)
    (hdisj : ∀ x ∈ l, ¬(p x = true ∧ q x = true)) :
    ((l.filter (fun x => p x || q x)).map f).sum =
      ((l.filter p).map f).sum + ((l.filter q).map f).sum := by
  induction l with
  | nil => simp
  | cons a l ih =>
    have hih := ih (fun x hx => hdisj x (List.mem_cons_of_mem a hx))
    have hda := hdisj a (List.mem_cons_self a l)
    cases hpa : p a <;> cases hqa : q a
    · simp [List.filter_cons, hpa, hqa, hih]
    · simp [List.filter_cons, hpa, hqa, hih]
      try ring
    · simp [List.filter_cons, hpa, hqa, hih]
      try ring
    · exact absurd ⟨hpa, hqa⟩ hda

/-- With pairwise-distinct catalog ids, filtering for one active id
returns exactly its document. -/
theorem filter_active_id_eq {db : List ServiceDoc}
    (hdb : (db.map (fun s => s.id)).Nodup) {s₀ : ServiceDoc} (hs : s₀ ∈ db)
    (hact : s₀.isActive = true) :
    db.filter (fun s => s.isActive && (s.id == s₀.id)) = [s₀] := by
  induction db with
  | nil => cases hs
  | cons a l ih =>
    rw [List.map_cons, List.nodup_cons] at hdb
    rcases List.mem_cons.mp hs with rfl | hsl
    · rw [List.filter_cons_of_pos (by simp [hact])]
      have htail : l.filter (fun s => s.isActive && (s.id == s₀.id)) = [] := by
        rw [List.filter_eq_nil_iff]
        intro t ht
        simp only [Bool.and_eq_true, beq_iff_eq, not_and]
        intro _ hidt
        exact hdb.1 (hidt ▸ List.mem_map_of_mem (fun s => s.id) ht)
      rw [htail]
    · have hane : (a.id == s₀.id) = false := by
        rw [beq_eq_false_iff_ne]
        intro he
        exact hdb.1 (he ▸ List.mem_map_of_mem (fun s => s.id) hsl)
      rw [List.filter_cons_of_neg (by simp [hane])]
      exact ih hdb.2 hsl

/-- The server-side billed sum equals the per-id catalog-price sum
when every id resolves uniquely to an active document. -/
theorem serverSum_eq (db : List ServiceDoc) (ids : List String)
    (hdb : (db.map (fun s => s.id)).Nodup) (hids : ids.Nodup)
    (hres : ∀ i ∈ ids, ∃ s ∈ db, s.id = i ∧ s.isActive = true) :
    ((serviceDocsFor db ids).map (fun s => s.price)).sum =
      (ids.map (fun i =>
        ((db.find? (fun s => s.id == i)).map (fun s => s.price)).getD 0)).sum := by
  induction ids with
  | nil =>
    unfold serviceDocsFor
    simp
  | cons i ids ih =>
    rw [List.nodup_cons] at hids
    obtain ⟨s₀, hs₀, hid₀, hact₀⟩ := hres i (List.mem_cons_self i ids)
    have hdisj : ∀ x ∈ db,
        ¬((x.isActive && (x.id == i)) = true ∧ (x.isActive && ids.contains x.id) = true) := by
      rintro x hx ⟨h1, h2⟩
      simp only [Bool.and_eq_true, beq_iff_eq] at h1
      simp only [Bool.and_eq_true] at h2
      exact hids.1 (h1.2 ▸ List.elem_iff.mp h2.2)
    have heq1 : serviceDocsFor db (i :: ids) =
        db.filter (fun s => (s.isActive && (s.id == i)) || (s.isActive && ids.contains s.id)) := by
      unfold serviceDocsFor
      apply List.filter_congr
      intro s _
      rw [List.contains_cons, Bool.and_or_distrib_left]
    rw [heq1, filter_or_sum _ _ _ _ hdisj]
    have heq2 : db.filter (fun s => s.isActive && (s.id == i)) = [s₀] := by
      have h0 := filter_active_id_eq hdb hs₀ hact₀
      rwa [hid₀] at h0
    have hfind : db.find? (fun s => s.id == i) = some s₀ :=
      find_key_unique (fun s => s.id) hdb hs₀ hid₀
    rw [heq2,
      show db.filter (fun x => x.isActive && ids.contains x.id) =
        serviceDocsFor db ids from rfl,
      ih hids.2 (fun j hj => hres j (List.mem_cons_of_mem i hj))]
    simp [hfind]

/-- C6: for every catalog (in any order the form-data endpoint may
serve it), every duplicate-free selection of ids that all resolve to
active services, and every discount input, the client-hook preview
(subtotal, discountAmt, payable) equals the authoritative values
(subtotal, discountAmount, finalTotal) that POST /api/visits persists
for the same inputs. -/
theorem claim_C6_client_server_agreement (db : List ServiceDoc)
    (catalog : List UseVisitForm.CatalogItem) (r : Req) (v : Visit)
    (hcat : catalog.Perm (UseVisitForm.formDataServices db))
    (hdb : (db.map (fun s => s.id)).Nodup)
    (hids : r.serviceIds.Nodup)
    (hres : ∀ i ∈ r.serviceIds, ∃ s ∈ db, s.id = i ∧ s.isActive = true)
    (h : post db r = .created v) :
    UseVisitForm.subtotal catalog r.serviceIds = v.subtotal ∧
    UseVisitForm.discountAmt catalog r.serviceIds r.discountPercent = v.discountAmount ∧
    UseVisitForm.payable catalog r.serviceIds r.discountPercent = v.finalTotal := by
  have hv := (post_created_iff.mp h).2.2.2.2
  subst hv
  have hndcat : ((UseVisitForm.formDataServices db).map (fun c => c.id)).Nodup :=
    formData_keys_nodup hdb
  have hsub : UseVisitForm.subtotal catalog r.serviceIds = subtotalFor db r := by
    rw [hook_subtotal_eq_sum, subtotalFor_eq_sum,
      serverSum_eq db r.serviceIds hdb hids hres]
    congr 1
    apply List.map_congr_left
    intro i hi
    obtain ⟨s₀, hs₀, hid₀, hact₀⟩ := hres i hi
    have hfind_db : db.find? (fun s => s.id == i) = some s₀ :=
      find_key_unique (fun s => s.id) hdb hs₀ hid₀
    have hmem_fd : (⟨s₀.id, s₀.name, s₀.price⟩ : UseVisitForm.CatalogItem) ∈
        UseVisitForm.formDataServices db :=
      List.mem_map_of_mem _ (List.mem_filter.mpr ⟨hs₀, hact₀⟩)
    have hfind_fd : (UseVisitForm.formDataServices db).find? (fun c => c.id == i) =
        some ⟨s₀.id, s₀.name, s₀.price⟩ :=
      find_key_unique (fun c => c.id) hndcat hmem_fd hid₀
    have hfind_cat : catalog.find? (fun c => c.id == i) =
        some ⟨s₀.id, s₀.name, s₀.price⟩ := by
      rw [find_key_of_perm (fun c => c.id) hcat hndcat i]
      exact hfind_fd
    rw [hfind_cat, hfind_db]
    rfl
  refine ⟨hsub, ?_, ?_⟩
  · unfold UseVisitForm.discountAmt UseVisitForm.discountPct
    rw [hsub]
    rfl
  · unfold UseVisitForm.payable UseVisitForm.discountAmt UseVisitForm.discountPct
    rw [hsub]
    rfl

/-- C6 witness: the spec scenario instantiates the agreement. -/
theorem claim_C6_witness :
    UseVisitForm.subtotal (UseVisitForm.formDataServices Examples.exDb)
      Examples.exReqCash.serviceIds = Examples.exVisitCash.subtotal ∧
    UseVisitForm.discountAmt (UseVisitForm.formDataServices Examples.exDb)
      Examples.exReqCash.serviceIds Examples.exReqCash.discountPercent =
      Examples.exVisitCash.discountAmount ∧
    UseVisitForm.payable (UseVisitForm.formDataServices Examples.exDb)
      Examples.exReqCash.serviceIds Examples.exReqCash.discountPercent =
      Examples.exVisitCash.finalTotal :=
  claim_C6_client_server_agreement Examples.exDb
    (UseVisitForm.formDataServices Examples.exDb) Examples.exReqCash
    Examples.exVisitCash (List.Perm.refl _) (by decide) (by decide) (by decide)
    post_exReqCash_eval

end Salon
